import Mathlib

/-!
# Verification of the announcement-composer core of `bot.py`

This file gives a shallow embedding, over `List Char`, of the message
composition pipeline of the Discord bot in `bot.py`:

* the text normalizer `_multiline` (escape-sequence replacement plus strip),
* role-mention resolution (`parse_role_mentions`, `build_mention_content`),
* the authorization predicates (`staff_only`, `can_mention_everyone`),
* button assembly (`create_button`, `parse_button_params`),
* the outbound-payload builder (`send_embed`), and
* the `announce` / `update` slash-command handlers.

Python strings are modelled as `List Char`; `str | None` parameters as
`Option (List Char)`; Python truthiness of strings/lists as non-emptiness.
The semantics of `str.replace`, `str.strip`, `str.split`, `str.isdigit`,
`str.lower` and `sep.join` are reproduced by the `py*` helper functions
below, restricted to the ASCII whitespace / case range exercised by the
program (Python's full Unicode case and space folding is out of scope).
The Discord SDK is modelled only as the shape of the payload the program
hands to it (`SentMessage`), with channel handles as numbers and the
library objects `Role`/`Guild`/`Interaction` as plain records.
-/

/-- Python `str.strip` whitespace set (the ASCII part, which is all the
program ever produces: space, tab, newline, carriage return, vertical
tab, form feed). -/
def pyIsSpace (c : Char) : Bool :=
  c = ' ' || c = '\t' || c = '\n' || c = '\r' || c = '\x0b' || c = '\x0c'

/-- Python `s.strip()`: drop leading whitespace, then trailing whitespace. -/
def pyStrip (s : List Char) : List Char :=
  ((s.dropWhile pyIsSpace).reverse.dropWhile pyIsSpace).reverse

/-- Boolean prefix test on `List Char` (used by the `replace` scanner). -/
def isPrefOf : List Char → List Char → Bool
  | [], _ => true
  | _ :: _, [] => false
  | a :: as, b :: bs => a == b && isPrefOf as bs

/-- The left-to-right, non-overlapping scanner behind Python
`s.replace(pat, rep)` for a non-empty pattern `p :: ps`: at each position,
if the pattern is a prefix, emit `rep` and skip past the match, otherwise
keep the character and continue.  The extra `Nat` argument is structural
fuel; every step consumes at least one input character, so fuel equal to
the input length (as `pyReplace` passes) never runs out. -/
def replaceGo (p : Char) (ps rep : List Char) : Nat → List Char → List Char
  | _, [] => []
  | 0, c :: cs => c :: cs
  | n + 1, c :: cs =>
    if c == p && isPrefOf ps cs then
      rep ++ replaceGo p ps rep n (cs.drop ps.length)
    else
      c :: replaceGo p ps rep n cs

/-- Python `s.replace(pat, rep)` (for the empty pattern, which the program
never uses, we return `s` unchanged). -/
def pyReplace (s pat rep : List Char) : List Char :=
  match pat with
  | [] => s
  | p :: ps => replaceGo p ps rep s.length s

/-- Occurrence test: does the pattern `p :: ps` occur (as a contiguous
substring) anywhere in the string?  Verification device used to reason
about `replaceGo`. -/
def hasMatch (p : Char) (ps : List Char) : List Char → Bool
  | [] => false
  | c :: cs => (c == p && isPrefOf ps cs) || hasMatch p ps cs

/-- Core of `_multiline` on a present string (`bot.py` lines 34-40):
replace the literal escape sequences `\r\n`, `\n`, `\r` with a real line
break and `\t` with a real tab, in that order, then strip. -/
def multilineStr (s : List Char) : List Char :=
  pyStrip
    (pyReplace
      (pyReplace
        (pyReplace
          (pyReplace s ("\\r\\n".data) ("\n".data))
          ("\\n".data) ("\n".data))
        ("\\r".data) ("\n".data))
      ("\\t".data) ("\t".data))

/-- `_multiline` (`bot.py` lines 30-40): absent input yields absent output,
otherwise normalize via the replacement pipeline and strip. -/
def _multiline : Option (List Char) → Option (List Char)
  | none => none
  | some s => some (multilineStr s)

/-- Python `s.split(sep)` for a one-character separator: split at every
occurrence, keeping empty parts. -/
def pySplitChar (sep : Char) : List Char → List (List Char)
  | [] => [[]]
  | c :: cs =>
    match pySplitChar sep cs with
    | [] => [[]]
    | p :: ps => if c = sep then [] :: p :: ps else (c :: p) :: ps

/-- Python `s.isdigit()` restricted to ASCII digits: non-empty and all
characters in `0`..`9`. -/
def pyIsDigitStr (s : List Char) : Bool :=
  !s.isEmpty && s.all Char.isDigit

/-- Python `int(s)` on a string of decimal digits. -/
def listToNat (s : List Char) : Nat :=
  s.foldl (fun n c => 10 * n + (c.toNat - '0'.toNat)) 0

/-- Python `sep.join(parts)`. -/
def pyJoin (sep : List Char) : List (List Char) → List Char
  | [] => []
  | [x] => x
  | x :: xs => x ++ sep ++ pyJoin sep xs

/-- Python `str.lower` restricted to ASCII letters (all style tokens and
labels the program compares are ASCII). -/
def pyLower (s : List Char) : List Char :=
  s.map Char.toLower

/-- Python truthiness of a `str | None` value: `None` and the empty string
are falsy. -/
def pyTruthyStr : Option (List Char) → Bool
  | none => false
  | some s => !s.isEmpty

/-- A guild role, as the program uses it: a numeric id and a name. -/
structure Role where
  id : Nat
  name : List Char
deriving DecidableEq

/-- `discord.Role.mention`: the mention form `<@&ID>` of a role. -/
def Role.mention (r : Role) : List Char :=
  "<@&".data ++ (Nat.repr r.id).data ++ ">".data

/-- A guild: its role set (ordered, as `guild.roles` is). -/
structure Guild where
  roles : List Role
deriving DecidableEq

/-- `guild.get_role(rid)`: lookup by numeric id. -/
def Guild.get_role (g : Guild) (rid : Nat) : Option Role :=
  g.roles.find? (fun r => r.id = rid)

/-- `discord.utils.get(guild.roles, name=part)`: first role with exactly
the given name. -/
def Guild.get_by_name (g : Guild) (nm : List Char) : Option Role :=
  g.roles.find? (fun r => r.name = nm)

/-- The requester, as the two permission checks see it: the
`guild_permissions.administrator` flag and the requester's role list. -/
structure User where
  administrator : Bool
  roles : List Role
deriving DecidableEq

/-- A slash-command interaction: the requester and the guild it happens in. -/
structure Interaction where
  user : User
  guild : Guild
deriving DecidableEq

/-- `staff_only` (`bot.py` lines 174-181): administrator, or at least one
role named `Owner`, `Admin` or `Support`. -/
def staff_only (i : Interaction) : Bool :=
  i.user.administrator ||
    i.user.roles.any (fun r =>
      r.name = "Owner".data || r.name = "Admin".data || r.name = "Support".data)

/-- `can_mention_everyone` (`bot.py` lines 137-139): administrator, or a
role named `Owner` or `Admin`. -/
def can_mention_everyone (i : Interaction) : Bool :=
  i.user.administrator ||
    i.user.roles.any (fun r => r.name = "Owner".data || r.name = "Admin".data)

/-- One token of the `parse_role_mentions` loop body (`bot.py` lines
110-120): by id first when the token is all digits, else by exact name. -/
def lookupToken (g : Guild) (part : List Char) : Option Role :=
  let byId := if pyIsDigitStr part then g.get_role (listToNat part) else none
  match byId with
  | some r => some r
  | none => g.get_by_name part

/-- The `for part in role_parts` loop of `parse_role_mentions`: skip empty
parts, append each token that resolves. -/
def parseLoop (g : Guild) : List (List Char) → List Role
  | [] => []
  | part :: rest =>
    if part.isEmpty then parseLoop g rest
    else
      match lookupToken g part with
      | some r => r :: parseLoop g rest
      | none => parseLoop g rest

/-- `parse_role_mentions` (`bot.py` lines 98-122): falsy input gives no
roles; otherwise split on commas, strip each part, and run the lookup
loop. -/
def parse_role_mentions (g : Guild) (role_input : Option (List Char)) : List Role :=
  if pyTruthyStr role_input = false then []
  else
    match role_input with
    | none => []
    | some s => parseLoop g ((pySplitChar ',' s).map pyStrip)

/-- `build_mention_content` (`bot.py` lines 124-135): `@everyone` if
requested, then each role's mention form, joined by single spaces. -/
def build_mention_content (mention_everyone : Bool) (mention_roles : List Role) : List Char :=
  pyJoin (" ".data)
    ((if mention_everyone then ["@everyone".data] else []) ++ mention_roles.map Role.mention)

/-- Button styles of the chat SDK. -/
inductive ButtonStyle where
  | primary
  | secondary
  | success
  | danger
  | link
deriving DecidableEq

/-- An assembled button, with the fields the program sets: label, url
(hyperlink buttons only), optional emoji, style, and the custom identifier
(non-hyperlink buttons only). -/
structure Button where
  label : List Char
  url : Option (List Char)
  emoji : Option (List Char)
  style : ButtonStyle
  custom_id : Option (List Char)
deriving DecidableEq

/-- `create_button` (`bot.py` lines 53-61): a truthy url makes a link
button (style forced to `link`, no custom id); otherwise a regular button
with `custom_id = "btn_" + label.lower().replace(' ', '_')`. -/
def create_button (label : List Char) (url emoji : Option (List Char))
    (style : ButtonStyle) : Button :=
  if pyTruthyStr url then
    ⟨label, url, emoji, ButtonStyle.link, none⟩
  else
    ⟨label, none, emoji, style,
      some ("btn_".data ++ pyReplace (pyLower label) (" ".data) ("_".data))⟩

/-- The `style_map.get(·, secondary)` table of `parse_button_params`
(`bot.py` lines 82-89). -/
def style_map_get (s : List Char) : ButtonStyle :=
  if s = "primary".data then ButtonStyle.primary
  else if s = "secondary".data then ButtonStyle.secondary
  else if s = "success".data then ButtonStyle.success
  else if s = "danger".data then ButtonStyle.danger
  else if s = "link".data then ButtonStyle.link
  else ButtonStyle.secondary

/-- One iteration of the `for i in range(1, 4)` loop of
`parse_button_params` (`bot.py` lines 67-92): skip when the label is falsy
(absent or empty), else build the button with the style token lowered and
looked up (defaulting to `"secondary"` when the style kwarg is absent). -/
def parseSlot (label url emoji style : Option (List Char)) : List Button :=
  match label with
  | none => []
  | some l =>
    if l.isEmpty then []
    else
      [create_button l url emoji
        (style_map_get (pyLower (style.getD ("secondary".data))))]

/-- The twelve `button{1,2,3}_{label,url,emoji,style}` kwargs, in slot
order. -/
structure ButtonKwargs where
  button1_label : Option (List Char)
  button1_url : Option (List Char)
  button1_emoji : Option (List Char)
  button1_style : Option (List Char)
  button2_label : Option (List Char)
  button2_url : Option (List Char)
  button2_emoji : Option (List Char)
  button2_style : Option (List Char)
  button3_label : Option (List Char)
  button3_url : Option (List Char)
  button3_emoji : Option (List Char)
  button3_style : Option (List Char)
deriving DecidableEq

/-- `parse_button_params` (`bot.py` lines 63-94): the three slots in
order, each contributing at most one button. -/
def parse_button_params (kw : ButtonKwargs) : List Button :=
  parseSlot kw.button1_label kw.button1_url kw.button1_emoji kw.button1_style ++
  parseSlot kw.button2_label kw.button2_url kw.button2_emoji kw.button2_style ++
  parseSlot kw.button3_label kw.button3_url kw.button3_emoji kw.button3_style

/-- `discord.AllowedMentions(everyone=…, roles=…)` as the program builds
it: two booleans.  A `roles := true` flag permits pings for every role of
the guild, not a specific role list. -/
structure AllowedMentions where
  everyone : Bool
  roles : Bool
deriving DecidableEq

/-- The embed part of the payload: title, description, optional footer,
author tag (the color is a constant and is not modelled). -/
structure Embed where
  title : List Char
  description : List Char
  footer : Option (List Char)
  author : List Char
deriving DecidableEq

/-- The outbound payload handed to `channel.send`: destination channel,
optional plain-text content, the embed, the optional button view, and the
allow-list if one was passed (`none` means the transport's default
allow-list applies). -/
structure SentMessage where
  channel : Nat
  content : Option (List Char)
  embed : Embed
  view : Option (List Button)
  allowed_mentions : Option AllowedMentions
deriving DecidableEq

/-- The constant author tag set on every embed. -/
def authorName : List Char := "Omegaberg | Official Shop".data

/-- `send_embed` (`bot.py` lines 142-172): build the embed (title and body
stripped and hard-cut to 256/4096, truthy footer cut to 2048), attach a
view when the button list is non-empty, build the mention content, and
pass an `AllowedMentions(everyone=mention_everyone,
roles=bool(mention_roles))` allow-list exactly when the mention content is
non-empty. -/
def send_embed (channel : Nat) (title body : List Char) (footer : Option (List Char))
    (buttons : List Button) (mention_everyone : Bool) (mention_roles : List Role) :
    SentMessage :=
  let embed : Embed :=
    ⟨(pyStrip title).take 256,
     (pyStrip body).take 4096,
     (match footer with
      | some f => if f.isEmpty then none else some (f.take 2048)
      | none => none),
     authorName⟩
  let view : Option (List Button) := if buttons.isEmpty then none else some buttons
  let mention_content := build_mention_content mention_everyone mention_roles
  if mention_content.isEmpty then
    ⟨channel, none, embed, view, none⟩
  else
    ⟨channel, some mention_content, embed, view,
      some ⟨mention_everyone, !mention_roles.isEmpty⟩⟩

/-- Interpretation of the transport's ping semantics for a payload's
allow-list: with no allow-list attached the transport default applies
(this bot sets no default, so everything is permitted); with an allow-list
attached, the boolean `roles` flag permits pings for every role alike. -/
def roleIsPermitted (am : Option AllowedMentions) (_r : Role) : Bool :=
  match am with
  | none => true
  | some a => a.roles

/-- Interpretation of the transport's ping semantics for the `everyone`
flag of a payload's allow-list (default-permit when absent, as above). -/
def everyoneIsPermitted (am : Option AllowedMentions) : Bool :=
  match am with
  | none => true
  | some a => a.everyone

/-- Outcome of one `announce`/`update` invocation: an ephemeral rejection
reply carrying its user-visible text, or a posted payload.  (The ephemeral
confirmation followup after a successful post is not modelled; no claim
refers to it.) -/
inductive PostResult where
  | forbidden (reply : List Char)
  | channelNotFound (reply : List Char)
  | posted (msg : SentMessage)
deriving DecidableEq

/-- Did the invocation post a message? -/
def PostResult.isPosted : PostResult → Bool
  | .posted _ => true
  | _ => false

/-- The posted payload, if any. -/
def PostResult.sentMsg : PostResult → Option SentMessage
  | .posted m => some m
  | _ => none

/-- Rejection text of the `staff_only` gate. -/
def postDeniedMsg : List Char := "You don't have permission to post here.".data

/-- Rejection text of the everyone-mention gate. -/
def everyoneDeniedMsg : List Char := "You don't have permission to use @everyone mentions.".data

/-- Rejection text of the announce-channel gate. -/
def announceChannelMsg : List Char := "Announcement channel not found. Check the ID.".data

/-- Rejection text of the update-channel gate. -/
def updateChannelMsg : List Char := "Update channel not found. Check the ID.".data

/-- The `/post announce` handler (`bot.py` lines 208-264).  `channel` is
the result of resolving `ANNOUNCEMENT_CHANNEL_ID`: `some ch` when
`get_channel` yields an existing text channel, `none` otherwise.  Gates in
source order (staff, everyone-mention, channel), then normalization and
hard cuts, mention resolution, button assembly, and the send. -/
def announce (i : Interaction) (channel : Option Nat) (title body : List Char)
    (footer : Option (List Char)) (mention_everyone : Bool)
    (mention_roles : Option (List Char)) (kw : ButtonKwargs) : PostResult :=
  if !staff_only i then PostResult.forbidden postDeniedMsg
  else if mention_everyone && !can_mention_everyone i then
    PostResult.forbidden everyoneDeniedMsg
  else
    match channel with
    | none => PostResult.channelNotFound announceChannelMsg
    | some ch =>
      let title2 := (multilineStr title).take 256
      let body2 := (multilineStr body).take 4096
      let footer2 : Option (List Char) :=
        match footer with
        | some f => if f.isEmpty then none else some ((multilineStr f).take 2048)
        | none => none
      let roles_to_mention := parse_role_mentions i.guild mention_roles
      let buttons := parse_button_params kw
      PostResult.posted
        (send_embed ch title2 body2 footer2 buttons mention_everyone roles_to_mention)

/-- The `/post update` handler (`bot.py` lines 286-342): identical to
`announce` except for the target channel (`UPDATE_CHANNEL_ID`) and the
channel-gate text. -/
def update (i : Interaction) (channel : Option Nat) (title body : List Char)
    (footer : Option (List Char)) (mention_everyone : Bool)
    (mention_roles : Option (List Char)) (kw : ButtonKwargs) : PostResult :=
  if !staff_only i then PostResult.forbidden postDeniedMsg
  else if mention_everyone && !can_mention_everyone i then
    PostResult.forbidden everyoneDeniedMsg
  else
    match channel with
    | none => PostResult.channelNotFound updateChannelMsg
    | some ch =>
      let title2 := (multilineStr title).take 256
      let body2 := (multilineStr body).take 4096
      let footer2 : Option (List Char) :=
        match footer with
        | some f => if f.isEmpty then none else some ((multilineStr f).take 2048)
        | none => none
      let roles_to_mention := parse_role_mentions i.guild mention_roles
      let buttons := parse_button_params kw
      PostResult.posted
        (send_embed ch title2 body2 footer2 buttons mention_everyone roles_to_mention)

/-! ## Concrete instances used in example-level theorems -/

/-- Example role addressed by numeric id. -/
def exRoleById : Role := ⟨123456789012345678, "SomeRole".data⟩

/-- Example role addressed by exact name. -/
def exRoleSupport : Role := ⟨99, "Support".data⟩

/-- Example guild for mention-resolution instances. -/
def exGuild : Guild := ⟨[exRoleById, exRoleSupport]⟩

/-- A role that mention resolution approves in the allow-list instances. -/
def cexRoleA : Role := ⟨10, "A".data⟩

/-- A guild role that mention resolution did not approve. -/
def cexRoleB : Role := ⟨11, "B".data⟩

/-- A requester with no administrator flag and no allow-listed role. -/
def noStaffUser : Interaction := ⟨⟨false, [⟨1, "Member".data⟩]⟩, ⟨[]⟩⟩

/-- A requester whose only allow-listed role is `Support`. -/
def supportOnly : Interaction := ⟨⟨false, [⟨2, "Support".data⟩]⟩, ⟨[]⟩⟩

/-- A requester with the administrator flag. -/
def adminOnly : Interaction := ⟨⟨true, []⟩, ⟨[]⟩⟩

/-- Button kwargs with every slot absent. -/
def kwNone : ButtonKwargs := ⟨none, none, none, none, none, none, none, none, none, none, none, none⟩

/-! ## String-primitive lemmas -/

theorem dropWhile_head_false {q : Char → Bool} {s : List Char} {c : Char} {l : List Char}
    (h : s.dropWhile q = c :: l) : q c = false := by
  induction s with
  | nil => simp at h
  | cons a as ih =>
    rw [List.dropWhile_cons] at h
    by_cases hq : q a = true
    · exact ih (by simpa [hq] using h)
    · rw [if_neg hq] at h
      injection h with h1 _
      simp at hq
      rw [← h1]
      exact hq

theorem dropWhile_dropWhile (q : Char → Bool) (s : List Char) :
    (s.dropWhile q).dropWhile q = s.dropWhile q := by
  cases h : s.dropWhile q with
  | nil => rfl
  | cons c l =>
    have hc := dropWhile_head_false h
    rw [List.dropWhile_cons, hc]
    simp

theorem pyStrip_decomp (s : List Char) : ∃ u v, s = u ++ pyStrip s ++ v := by
  obtain ⟨u, hu⟩ := List.dropWhile_suffix (l := s) pyIsSpace
  obtain ⟨w, hw⟩ := List.dropWhile_suffix (l := (s.dropWhile pyIsSpace).reverse) pyIsSpace
  refine ⟨u, w.reverse, ?_⟩
  have h2 : s.dropWhile pyIsSpace = pyStrip s ++ w.reverse := by
    unfold pyStrip
    conv_lhs => rw [← List.reverse_reverse (s.dropWhile pyIsSpace), ← hw]
    rw [List.reverse_append]
  calc s = u ++ s.dropWhile pyIsSpace := hu.symm
    _ = u ++ (pyStrip s ++ w.reverse) := by rw [h2]
    _ = u ++ pyStrip s ++ w.reverse := by rw [List.append_assoc]

theorem pyStrip_idem (s : List Char) : pyStrip (pyStrip s) = pyStrip s := by
  have hA : (pyStrip s).dropWhile pyIsSpace = pyStrip s := by
    cases ht : pyStrip s with
    | nil => rfl
    | cons c l =>
      have hlast : (pyStrip s).reverse = ((s.dropWhile pyIsSpace).reverse).dropWhile pyIsSpace := by
        unfold pyStrip
        rw [List.reverse_reverse]
      -- head of pyStrip s is the head of s.dropWhile pyIsSpace, which fails pyIsSpace
      obtain ⟨w, hw⟩ := List.dropWhile_suffix (l := (s.dropWhile pyIsSpace).reverse) pyIsSpace
      have hds : s.dropWhile pyIsSpace = pyStrip s ++ w.reverse := by
        unfold pyStrip
        conv_lhs => rw [← List.reverse_reverse (s.dropWhile pyIsSpace), ← hw]
        rw [List.reverse_append]
      have hhead : s.dropWhile pyIsSpace = c :: (l ++ w.reverse) := by
        rw [hds, ht]
        simp
      have hc := dropWhile_head_false hhead
      rw [List.dropWhile_cons, hc]
      simp
  have hB : ((pyStrip s).reverse).dropWhile pyIsSpace = (pyStrip s).reverse := by
    have hlast : (pyStrip s).reverse = ((s.dropWhile pyIsSpace).reverse).dropWhile pyIsSpace := by
      unfold pyStrip
      rw [List.reverse_reverse]
    rw [hlast]
    exact dropWhile_dropWhile _ _
  have houter : pyStrip (pyStrip s) =
      (((pyStrip s).dropWhile pyIsSpace).reverse.dropWhile pyIsSpace).reverse := rfl
  rw [houter, hA, hB, List.reverse_reverse]

/-! ## Occurrence and replacement lemmas -/

theorem isPrefOf_append {l cs v : List Char} (h : isPrefOf l cs = true) :
    isPrefOf l (cs ++ v) = true := by
  induction l generalizing cs with
  | nil => rfl
  | cons a as ih =>
    cases cs with
    | nil => simp [isPrefOf] at h
    | cons b bs =>
      simp only [isPrefOf, Bool.and_eq_true] at h ⊢
      exact ⟨h.1, ih h.2⟩

theorem hasMatch_cons_of {p : Char} {ps : List Char} {c : Char} {cs : List Char}
    (h : hasMatch p ps cs = true) : hasMatch p ps (c :: cs) = true := by
  simp only [hasMatch, Bool.or_eq_true]
  exact Or.inr h

theorem hasMatch_append_left {p : Char} {ps s : List Char} (u : List Char)
    (h : hasMatch p ps s = true) : hasMatch p ps (u ++ s) = true := by
  induction u with
  | nil => exact h
  | cons a as ih => exact hasMatch_cons_of ih

theorem hasMatch_append_right {p : Char} {ps s : List Char} (v : List Char)
    (h : hasMatch p ps s = true) : hasMatch p ps (s ++ v) = true := by
  induction s with
  | nil => simp [hasMatch] at h
  | cons c cs ih =>
    simp only [hasMatch, Bool.or_eq_true, Bool.and_eq_true] at h
    rcases h with ⟨h1, h2⟩ | h
    · simp only [List.cons_append, hasMatch, Bool.or_eq_true, Bool.and_eq_true]
      exact Or.inl ⟨h1, isPrefOf_append h2⟩
    · exact hasMatch_cons_of (ih h)

theorem hasMatch_pyStrip {p : Char} {ps s : List Char}
    (h : hasMatch p ps (pyStrip s) = true) : hasMatch p ps s = true := by
  obtain ⟨u, v, huv⟩ := pyStrip_decomp s
  rw [huv, List.append_assoc]
  exact hasMatch_append_left u (hasMatch_append_right v h)

theorem hasMatch_tail_pat {p x : Char} {xs s : List Char}
    (h : hasMatch p (x :: xs) s = true) : hasMatch p [x] s = true := by
  induction s with
  | nil => simp [hasMatch] at h
  | cons c cs ih =>
    simp only [hasMatch, Bool.or_eq_true, Bool.and_eq_true] at h ⊢
    rcases h with ⟨h1, h2⟩ | h
    · refine Or.inl ⟨h1, ?_⟩
      cases cs with
      | nil => simp [isPrefOf] at h2
      | cons d ds =>
        simp only [isPrefOf, Bool.and_eq_true] at h2 ⊢
        exact ⟨h2.1, trivial⟩
    · exact Or.inr (ih h)

theorem replaceGo_head {p : Char} {ps : List Char} {g : Char} {rep' : List Char}
    {n : Nat} {s : List Char} {d : Char} {l : List Char}
    (h : replaceGo p ps (g :: rep') n s = d :: l) :
    d = g ∨ ∃ s', s = d :: s' := by
  cases s with
  | nil => simp [replaceGo] at h
  | cons c cs =>
    cases n with
    | zero =>
      injection h with h1 _
      exact Or.inr ⟨cs, by rw [h1]⟩
    | succ m =>
      simp only [replaceGo] at h
      by_cases hc : (c == p && isPrefOf ps cs) = true
      · rw [if_pos hc] at h
        injection h with h1 _
        exact Or.inl h1.symm
      · rw [if_neg hc] at h
        injection h with h1 _
        exact Or.inr ⟨cs, by rw [h1]⟩

theorem replaceGo_no_self {a b g : Char} (hga : g ≠ a) (hgb : g ≠ b) :
    ∀ n s, s.length ≤ n → hasMatch a [b] (replaceGo a [b] [g] n s) = false := by
  intro n
  induction n with
  | zero =>
    intro s hs
    have hnil : s = [] := List.length_eq_zero.mp (Nat.le_zero.mp hs)
    subst hnil
    rfl
  | succ m ih =>
    intro s hs
    cases s with
    | nil => rfl
    | cons c cs =>
      simp only [replaceGo]
      by_cases hc : (c == a && isPrefOf [b] cs) = true
      · rw [if_pos hc]
        have hcc := hc
        rw [Bool.and_eq_true] at hcc
        obtain ⟨hc1, hc2⟩ := hcc
        cases cs with
        | nil => simp [isPrefOf] at hc2
        | cons d ds =>
          rw [Bool.eq_false_iff]
          intro htrue
          simp only [List.singleton_append, List.length_cons, List.length_nil, List.append_eq, List.nil_append,
            List.drop_succ_cons, List.drop_zero, hasMatch, Bool.or_eq_true, Bool.and_eq_true,
            beq_iff_eq] at htrue
          rcases htrue with ⟨hg, _⟩ | htail
          · exact hga hg
          · have hlen : ds.length ≤ m := by
              simp only [List.length_cons] at hs
              omega
            rw [ih ds hlen] at htail
            cases htail
      · rw [if_neg hc]
        rw [Bool.eq_false_iff]
        intro htrue
        simp only [hasMatch, Bool.or_eq_true, Bool.and_eq_true, beq_iff_eq] at htrue
        rcases htrue with ⟨hca, hpre⟩ | htail
        · cases hX : replaceGo a [b] [g] m cs with
          | nil => rw [hX] at hpre; simp [isPrefOf] at hpre
          | cons d l =>
            rw [hX] at hpre
            have hbd : b = d := by
              simp only [isPrefOf, Bool.and_eq_true, beq_iff_eq] at hpre
              exact hpre.1
            rcases replaceGo_head hX with hdg | ⟨cs', hcs⟩
            · exact hgb (by rw [hbd, hdg])
            · apply hc
              rw [hcs, ← hbd]
              simp [isPrefOf, hca]
        · have hlen : cs.length ≤ m := by
            simp only [List.length_cons] at hs
            omega
          rw [ih cs hlen] at htail
          cases htail

theorem replaceGo_preserve {a b g x y : Char} (hgx : g ≠ x) (hgy : g ≠ y) :
    ∀ n s, s.length ≤ n →
      hasMatch x [y] (replaceGo a [b] [g] n s) = true → hasMatch x [y] s = true := by
  intro n
  induction n with
  | zero =>
    intro s hs h
    have hnil : s = [] := List.length_eq_zero.mp (Nat.le_zero.mp hs)
    subst hnil
    exact h
  | succ m ih =>
    intro s hs h
    cases s with
    | nil => exact h
    | cons c cs =>
      simp only [replaceGo] at h
      by_cases hc : (c == a && isPrefOf [b] cs) = true
      · rw [if_pos hc] at h
        have hcc := hc
        rw [Bool.and_eq_true] at hcc
        obtain ⟨hc1, hc2⟩ := hcc
        cases cs with
        | nil => simp [isPrefOf] at hc2
        | cons d ds =>
          simp only [List.singleton_append, List.length_cons, List.length_nil, List.append_eq, List.nil_append,
            List.drop_succ_cons, List.drop_zero, hasMatch, Bool.or_eq_true, Bool.and_eq_true,
            beq_iff_eq] at h
          rcases h with ⟨hg, _⟩ | htail
          · exact absurd hg hgx
          · have hlen : ds.length ≤ m := by
              simp only [List.length_cons] at hs
              omega
            exact hasMatch_cons_of (hasMatch_cons_of (ih ds hlen htail))
      · rw [if_neg hc] at h
        simp only [hasMatch, Bool.or_eq_true, Bool.and_eq_true, beq_iff_eq] at h
        rcases h with ⟨hcx, hpre⟩ | htail
        · cases hX : replaceGo a [b] [g] m cs with
          | nil => rw [hX] at hpre; simp [isPrefOf] at hpre
          | cons d l =>
            rw [hX] at hpre
            have hyd : y = d := by
              simp only [isPrefOf, Bool.and_eq_true, beq_iff_eq] at hpre
              exact hpre.1
            rcases replaceGo_head hX with hdg | ⟨cs', hcs⟩
            · exact absurd (by rw [hyd, hdg]) hgy
            · rw [hcs, ← hyd]
              simp [hasMatch, isPrefOf, hcx]
        · have hlen : cs.length ≤ m := by
            simp only [List.length_cons] at hs
            omega
          exact hasMatch_cons_of (ih cs hlen htail)

theorem replaceGo_eq_self {p : Char} {ps rep : List Char} :
    ∀ n s, hasMatch p ps s = false → replaceGo p ps rep n s = s := by
  intro n
  induction n with
  | zero =>
    intro s _
    cases s <;> rfl
  | succ m ih =>
    intro s h
    cases s with
    | nil => rfl
    | cons c cs =>
      simp only [hasMatch] at h
      by_cases hc : (c == p && isPrefOf ps cs) = true
      · rw [hc] at h
        simp at h
      · have hc' : (c == p && isPrefOf ps cs) = false := by
          cases hb : (c == p && isPrefOf ps cs)
          · rfl
          · exact absurd hb hc
        rw [hc'] at h
        simp only [Bool.false_or] at h
        simp only [replaceGo]
        rw [if_neg hc, ih cs h]

theorem pyReplace_eq_self {s : List Char} {p : Char} {ps rep : List Char}
    (h : hasMatch p ps s = false) : pyReplace s (p :: ps) rep = s :=
  replaceGo_eq_self s.length s h

theorem multilineStr_no_escapes (s : List Char) :
    hasMatch '\\' ['n'] (multilineStr s) = false ∧
    hasMatch '\\' ['r'] (multilineStr s) = false ∧
    hasMatch '\\' ['t'] (multilineStr s) = false := by
  set r1 := pyReplace s ("\\r\\n".data) ("\n".data) with hr1
  set r2 := pyReplace r1 ("\\n".data) ("\n".data) with hr2
  set r3 := pyReplace r2 ("\\r".data) ("\n".data) with hr3
  set r4 := pyReplace r3 ("\\t".data) ("\t".data) with hr4
  have hms : multilineStr s = pyStrip r4 := rfl
  have f2 : hasMatch '\\' ['n'] r2 = false := by
    have h : r2 = replaceGo '\\' ['n'] ['\n'] r1.length r1 := rfl
    rw [h]
    exact replaceGo_no_self (by decide) (by decide) r1.length r1 le_rfl
  have f3n : hasMatch '\\' ['n'] r3 = false := by
    rw [Bool.eq_false_iff]
    intro htrue
    have h : r3 = replaceGo '\\' ['r'] ['\n'] r2.length r2 := rfl
    rw [h] at htrue
    have := replaceGo_preserve (by decide) (by decide) r2.length r2 le_rfl htrue
    rw [f2] at this
    cases this
  have f3r : hasMatch '\\' ['r'] r3 = false := by
    have h : r3 = replaceGo '\\' ['r'] ['\n'] r2.length r2 := rfl
    rw [h]
    exact replaceGo_no_self (by decide) (by decide) r2.length r2 le_rfl
  have f4n : hasMatch '\\' ['n'] r4 = false := by
    rw [Bool.eq_false_iff]
    intro htrue
    have h : r4 = replaceGo '\\' ['t'] ['\t'] r3.length r3 := rfl
    rw [h] at htrue
    have := replaceGo_preserve (by decide) (by decide) r3.length r3 le_rfl htrue
    rw [f3n] at this
    cases this
  have f4r : hasMatch '\\' ['r'] r4 = false := by
    rw [Bool.eq_false_iff]
    intro htrue
    have h : r4 = replaceGo '\\' ['t'] ['\t'] r3.length r3 := rfl
    rw [h] at htrue
    have := replaceGo_preserve (by decide) (by decide) r3.length r3 le_rfl htrue
    rw [f3r] at this
    cases this
  have f4t : hasMatch '\\' ['t'] r4 = false := by
    have h : r4 = replaceGo '\\' ['t'] ['\t'] r3.length r3 := rfl
    rw [h]
    exact replaceGo_no_self (by decide) (by decide) r3.length r3 le_rfl
  refine ⟨?_, ?_, ?_⟩ <;> rw [hms, Bool.eq_false_iff] <;> intro htrue
  · rw [hasMatch_pyStrip htrue] at f4n
    cases f4n
  · rw [hasMatch_pyStrip htrue] at f4r
    cases f4r
  · rw [hasMatch_pyStrip htrue] at f4t
    cases f4t

theorem multilineStr_fixes (s : List Char) : multilineStr (multilineStr s) = multilineStr s := by
  obtain ⟨hn, hr, ht⟩ := multilineStr_no_escapes s
  have hrn : hasMatch '\\' ['r', '\\', 'n'] (multilineStr s) = false := by
    rw [Bool.eq_false_iff]
    intro htrue
    have := hasMatch_tail_pat htrue
    rw [hr] at this
    cases this
  have e1 : pyReplace (multilineStr s) ("\\r\\n".data) ("\n".data) = multilineStr s :=
    pyReplace_eq_self hrn
  have e2 : pyReplace (multilineStr s) ("\\n".data) ("\n".data) = multilineStr s :=
    pyReplace_eq_self hn
  have e3 : pyReplace (multilineStr s) ("\\r".data) ("\n".data) = multilineStr s :=
    pyReplace_eq_self hr
  have e4 : pyReplace (multilineStr s) ("\\t".data) ("\t".data) = multilineStr s :=
    pyReplace_eq_self ht
  have hout : multilineStr (multilineStr s) =
      pyStrip
        (pyReplace
          (pyReplace
            (pyReplace
              (pyReplace (multilineStr s) ("\\r\\n".data) ("\n".data))
              ("\\n".data) ("\n".data))
            ("\\r".data) ("\n".data))
          ("\\t".data) ("\t".data)) := rfl
  rw [hout, e1, e2, e3, e4]
  have hms : multilineStr s =
      pyStrip
        (pyReplace
          (pyReplace
            (pyReplace
              (pyReplace s ("\\r\\n".data) ("\n".data))
              ("\\n".data) ("\n".data))
            ("\\r".data) ("\n".data))
          ("\\t".data) ("\t".data)) := rfl
  rw [hms, pyStrip_idem]

theorem hasMatch_false_of_not_mem {p : Char} {ps s : List Char} (h : p ∉ s) :
    hasMatch p ps s = false := by
  induction s with
  | nil => rfl
  | cons c cs ih =>
    simp only [hasMatch]
    have hcp : (c == p) = false := by
      rw [beq_eq_false_iff_ne]
      intro he
      exact h (he ▸ List.mem_cons_self c cs)
    rw [hcp]
    simp only [Bool.false_and, Bool.false_or]
    exact ih (fun hm => h (List.mem_cons_of_mem c hm))

theorem pyReplace_replicate {n : Nat} {c p : Char} {ps rep : List Char} (h : c ≠ p) :
    pyReplace (List.replicate n c) (p :: ps) rep = List.replicate n c :=
  pyReplace_eq_self (hasMatch_false_of_not_mem (by
    intro hm
    rw [List.mem_replicate] at hm
    exact h hm.2.symm))

theorem dropWhile_replicate_true {c : Char} {q : Char → Bool} (h : q c = true) (n : Nat) :
    List.dropWhile q (List.replicate n c) = [] := by
  induction n with
  | zero => rfl
  | succ m ih =>
    rw [List.replicate_succ, List.dropWhile_cons, h]
    simpa using ih

theorem pyStrip_replicate_space (n : Nat) : pyStrip (List.replicate n ' ') = [] := by
  unfold pyStrip
  rw [dropWhile_replicate_true (by decide) n]
  rfl

theorem pyStrip_replicate_nonspace {c : Char} (h : pyIsSpace c = false) (n : Nat) :
    pyStrip (List.replicate n c) = List.replicate n c := by
  have hd : List.dropWhile pyIsSpace (List.replicate n c) = List.replicate n c := by
    cases n with
    | zero => rfl
    | succ m =>
      rw [List.replicate_succ, List.dropWhile_cons, h]
      simp
  unfold pyStrip
  rw [hd, List.reverse_replicate, hd, List.reverse_replicate]

theorem multilineStr_replicate {c : Char} (hbs : c ≠ '\\') (n : Nat) :
    multilineStr (List.replicate n c) = pyStrip (List.replicate n c) := by
  have e1 : pyReplace (List.replicate n c) ("\\r\\n".data) ("\n".data) = List.replicate n c :=
    pyReplace_replicate hbs
  have e2 : pyReplace (List.replicate n c) ("\\n".data) ("\n".data) = List.replicate n c :=
    pyReplace_replicate hbs
  have e3 : pyReplace (List.replicate n c) ("\\r".data) ("\n".data) = List.replicate n c :=
    pyReplace_replicate hbs
  have e4 : pyReplace (List.replicate n c) ("\\t".data) ("\t".data) = List.replicate n c :=
    pyReplace_replicate hbs
  unfold multilineStr
  rw [e1, e2, e3, e4]

theorem multilineStr_replicate_space (n : Nat) : multilineStr (List.replicate n ' ') = [] :=
  (multilineStr_replicate (by decide) n).trans (pyStrip_replicate_space n)

theorem multilineStr_replicate_nonspace {c : Char} (hbs : c ≠ '\\') (hsp : pyIsSpace c = false)
    (n : Nat) : multilineStr (List.replicate n c) = List.replicate n c :=
  (multilineStr_replicate hbs n).trans (pyStrip_replicate_nonspace hsp n)

/-! ## Handler-shape lemmas -/

theorem announce_not_staff {i : Interaction} {ch : Option Nat} {t b : List Char}
    {f : Option (List Char)} {me : Bool} {mr : Option (List Char)} {kw : ButtonKwargs}
    (h : staff_only i = false) :
    announce i ch t b f me mr kw = PostResult.forbidden postDeniedMsg := by
  unfold announce
  rw [h]
  rfl

theorem update_not_staff {i : Interaction} {ch : Option Nat} {t b : List Char}
    {f : Option (List Char)} {me : Bool} {mr : Option (List Char)} {kw : ButtonKwargs}
    (h : staff_only i = false) :
    update i ch t b f me mr kw = PostResult.forbidden postDeniedMsg := by
  unfold update
  rw [h]
  rfl

theorem announce_no_everyone_perm {i : Interaction} {ch : Option Nat} {t b : List Char}
    {f : Option (List Char)} {mr : Option (List Char)} {kw : ButtonKwargs}
    (h1 : staff_only i = true) (h2 : can_mention_everyone i = false) :
    announce i ch t b f true mr kw = PostResult.forbidden everyoneDeniedMsg := by
  unfold announce
  rw [h1, h2]
  rfl

theorem update_no_everyone_perm {i : Interaction} {ch : Option Nat} {t b : List Char}
    {f : Option (List Char)} {mr : Option (List Char)} {kw : ButtonKwargs}
    (h1 : staff_only i = true) (h2 : can_mention_everyone i = false) :
    update i ch t b f true mr kw = PostResult.forbidden everyoneDeniedMsg := by
  unfold update
  rw [h1, h2]
  rfl

theorem announce_accepts (i : Interaction) (ch : Nat) (t b : List Char)
    (f : Option (List Char)) (me : Bool) (mr : Option (List Char)) (kw : ButtonKwargs)
    (h1 : staff_only i = true) (h2 : (me && !can_mention_everyone i) = false) :
    announce i (some ch) t b f me mr kw =
      PostResult.posted
        (send_embed ch ((multilineStr t).take 256) ((multilineStr b).take 4096)
          (match f with
           | some s => if s.isEmpty then none else some ((multilineStr s).take 2048)
           | none => none)
          (parse_button_params kw) me (parse_role_mentions i.guild mr)) := by
  unfold announce
  rw [h1, h2]
  rfl

theorem update_accepts (i : Interaction) (ch : Nat) (t b : List Char)
    (f : Option (List Char)) (me : Bool) (mr : Option (List Char)) (kw : ButtonKwargs)
    (h1 : staff_only i = true) (h2 : (me && !can_mention_everyone i) = false) :
    update i (some ch) t b f me mr kw =
      PostResult.posted
        (send_embed ch ((multilineStr t).take 256) ((multilineStr b).take 4096)
          (match f with
           | some s => if s.isEmpty then none else some ((multilineStr s).take 2048)
           | none => none)
          (parse_button_params kw) me (parse_role_mentions i.guild mr)) := by
  unfold update
  rw [h1, h2]
  rfl

theorem staff_only_eq_false {i : Interaction} (h1 : i.user.administrator = false)
    (h2 : ∀ r ∈ i.user.roles,
      r.name ≠ "Owner".data ∧ r.name ≠ "Admin".data ∧ r.name ≠ "Support".data) :
    staff_only i = false := by
  unfold staff_only
  rw [h1, Bool.false_or]
  rw [Bool.eq_false_iff]
  intro htrue
  rw [List.any_eq_true] at htrue
  obtain ⟨r, hmem, hr⟩ := htrue
  obtain ⟨n1, n2, n3⟩ := h2 r hmem
  simp only [Bool.or_eq_true, decide_eq_true_eq] at hr
  rcases hr with (h | h) | h
  · exact n1 h
  · exact n2 h
  · exact n3 h

theorem can_mention_everyone_eq_false {i : Interaction} (h1 : i.user.administrator = false)
    (h2 : ∀ r ∈ i.user.roles, r.name ≠ "Owner".data ∧ r.name ≠ "Admin".data) :
    can_mention_everyone i = false := by
  unfold can_mention_everyone
  rw [h1, Bool.false_or]
  rw [Bool.eq_false_iff]
  intro htrue
  rw [List.any_eq_true] at htrue
  obtain ⟨r, hmem, hr⟩ := htrue
  obtain ⟨n1, n2⟩ := h2 r hmem
  simp only [Bool.or_eq_true, decide_eq_true_eq] at hr
  rcases hr with h | h
  · exact n1 h
  · exact n2 h

/-! ## `send_embed` projections -/

theorem send_embed_embed (ch : Nat) (t b : List Char) (f : Option (List Char))
    (btns : List Button) (me : Bool) (rs : List Role) :
    (send_embed ch t b f btns me rs).embed =
      ⟨(pyStrip t).take 256, (pyStrip b).take 4096,
       (match f with
        | some x => if x.isEmpty then none else some (x.take 2048)
        | none => none),
       authorName⟩ := by
  unfold send_embed
  by_cases h : (build_mention_content me rs).isEmpty = true
  · rw [if_pos h]
  · rw [if_neg h]

theorem send_embed_allowed (ch : Nat) (t b : List Char) (f : Option (List Char))
    (btns : List Button) (me : Bool) (rs : List Role) :
    (send_embed ch t b f btns me rs).allowed_mentions =
      (if (build_mention_content me rs).isEmpty then none
       else some ⟨me, !rs.isEmpty⟩) := by
  unfold send_embed
  by_cases h : (build_mention_content me rs).isEmpty = true
  · rw [if_pos h, if_pos h]
  · rw [if_neg h, if_neg h]

theorem send_embed_content (ch : Nat) (t b : List Char) (f : Option (List Char))
    (btns : List Button) (me : Bool) (rs : List Role) :
    (send_embed ch t b f btns me rs).content =
      (if (build_mention_content me rs).isEmpty then none
       else some (build_mention_content me rs)) := by
  unfold send_embed
  by_cases h : (build_mention_content me rs).isEmpty = true
  · rw [if_pos h, if_pos h]
  · rw [if_neg h, if_neg h]

/-! ## Mention-resolution shape -/

theorem parseLoop_eq_filterMap (g : Guild) (parts : List (List Char)) :
    parseLoop g parts = (parts.filter (fun p => !p.isEmpty)).filterMap (lookupToken g) := by
  induction parts with
  | nil => rfl
  | cons part rest ih =>
    by_cases h : part.isEmpty = true
    · simp [parseLoop, h, List.filter_cons, ih]
    · have h' : part.isEmpty = false := by
        cases hb : part.isEmpty
        · rfl
        · exact absurd hb h
      simp only [parseLoop, h', Bool.false_eq_true, if_false, List.filter_cons, Bool.not_false,
        if_true, List.filterMap_cons, ih]
      cases lookupToken g part <;> simp

/-! ## Claim theorems -/

/-- C5: the normalizer maps absent input to absent output; on a present
string it replaces, in this order, the literal escape sequences `\r\n`,
`\n`, `\r` with a real line break and `\t` with a real tab, then strips
leading and trailing whitespace; and because the `\r\n` case fires before
the standalone ones, a typed `\r\n` yields a single line break, not two. -/
theorem normalize_replaces_in_order :
    _multiline none = none ∧
    (∀ s, _multiline (some s) = some (pyStrip
      (pyReplace
        (pyReplace
          (pyReplace
            (pyReplace s ("\\r\\n".data) ("\n".data))
            ("\\n".data) ("\n".data))
          ("\\r".data) ("\n".data))
        ("\\t".data) ("\t".data)))) ∧
    multilineStr ("a\\r\\nb".data) = "a\nb".data ∧
    multilineStr ("line1\\nline2".data) = "line1\nline2".data :=
  ⟨rfl, fun _ => rfl, by decide, by decide⟩

/-- Witness for `normalize_replaces_in_order` at a concrete input. -/
theorem normalize_replaces_in_order_witness :
    _multiline (some ("x\\ty".data)) = some ("x\ty".data) := by
  rw [normalize_replaces_in_order.2.1 ("x\\ty".data)]
  decide

/-- C6: the normalizer is idempotent. -/
theorem normalize_idempotent :
    ∀ x : Option (List Char), _multiline (_multiline x) = _multiline x
  | none => rfl
  | some s => congrArg some (multilineStr_fixes s)

/-- Witness for `normalize_idempotent` at a concrete input. -/
theorem normalize_idempotent_witness :
    _multiline (_multiline (some ("  a\\nb ".data))) = _multiline (some ("  a\\nb ".data)) :=
  normalize_idempotent (some ("  a\\nb ".data))

/-- C7: mention resolution drops absent input; on a present string it
splits on commas, strips each part, drops empty parts, and resolves each
remaining token by numeric id first (only when all digits) else by exact
name, silently dropping unmatched tokens; on the example guild the input
`"123456789012345678, NonexistentRole, Support"` resolves to exactly the
id-addressed role and the `Support` role. -/
theorem role_mention_resolution :
    (∀ g, parse_role_mentions g none = []) ∧
    (∀ g s, parse_role_mentions g (some s) =
      (((pySplitChar ',' s).map pyStrip).filter (fun p => !p.isEmpty)).filterMap
        (lookupToken g)) ∧
    (∀ g part, lookupToken g part =
      (match (if pyIsDigitStr part then g.get_role (listToNat part) else none) with
       | some r => some r
       | none => g.get_by_name part)) ∧
    parse_role_mentions exGuild
        (some ("123456789012345678, NonexistentRole, Support".data)) =
      [exRoleById, exRoleSupport] := by
  refine ⟨fun g => rfl, fun g s => ?_, fun g part => rfl, by decide⟩
  by_cases h : s.isEmpty = true
  · have hnil : s = [] := by
      cases s
      · rfl
      · simp [List.isEmpty] at h
    subst hnil
    rfl
  · have ht : pyTruthyStr (some s) = true := by
      show (!s.isEmpty) = true
      cases hb : s.isEmpty
      · rfl
      · exact absurd hb h
    unfold parse_role_mentions
    rw [ht]
    simp only [Bool.true_eq_false, if_false]
    exact parseLoop_eq_filterMap g _

/-- Witness for `role_mention_resolution` at a concrete input. -/
theorem role_mention_resolution_witness :
    parse_role_mentions exGuild (some ("Support".data)) =
      (((pySplitChar ',' ("Support".data)).map pyStrip).filter
        (fun p => !p.isEmpty)).filterMap (lookupToken exGuild) :=
  role_mention_resolution.2.1 exGuild ("Support".data)

theorem Role.mention_ne_nil (r : Role) : r.mention ≠ [] := by
  unfold Role.mention
  have h3 : "<@&".data = ['<', '@', '&'] := rfl
  rw [h3]
  simp

theorem pyJoin_head_ne_nil {sep x : List Char} (xs : List (List Char)) (hx : x ≠ []) :
    pyJoin sep (x :: xs) ≠ [] := by
  cases xs with
  | nil => exact hx
  | cons y ys =>
    show x ++ sep ++ pyJoin sep (y :: ys) ≠ []
    intro hcontra
    exact hx (List.append_eq_nil.mp (List.append_eq_nil.mp hcontra).1).1

/-- C8: the mention text is `@everyone` (present exactly when requested)
followed by each resolved role's mention form in order, joined by single
spaces, and it is empty exactly when nothing was requested or resolved. -/
theorem mention_text_concatenation :
    (∀ e rs, build_mention_content e rs =
      pyJoin (" ".data) ((if e then ["@everyone".data] else []) ++ rs.map Role.mention)) ∧
    (∀ e rs, build_mention_content e rs = [] ↔ e = false ∧ rs = []) ∧
    build_mention_content true [cexRoleA, cexRoleB] = "@everyone <@&10> <@&11>".data ∧
    build_mention_content false [] = [] := by
  refine ⟨fun e rs => rfl, fun e rs => ?_, by decide, rfl⟩
  constructor
  · intro h
    cases e
    · cases rs with
      | nil => exact ⟨rfl, rfl⟩
      | cons r rest =>
        exfalso
        have hne : build_mention_content false (r :: rest) ≠ [] := by
          show pyJoin (" ".data) ((if false then ["@everyone".data] else []) ++
            (r :: rest).map Role.mention) ≠ []
          simp only [if_false, List.nil_append, List.map_cons]
          exact pyJoin_head_ne_nil _ (Role.mention_ne_nil r)
        exact hne h
    · exfalso
      have hne : build_mention_content true rs ≠ [] := by
        show pyJoin (" ".data) ((if true then ["@everyone".data] else []) ++
          rs.map Role.mention) ≠ []
        simp only [if_true, List.cons_append]
        exact pyJoin_head_ne_nil _ (by decide)
      exact hne h
  · rintro ⟨he, hrs⟩
    subst he
    subst hrs
    rfl

/-- Witness for `mention_text_concatenation` at a concrete input. -/
theorem mention_text_concatenation_witness :
    build_mention_content false [cexRoleA] =
      pyJoin (" ".data) ((if false then ["@everyone".data] else []) ++
        [cexRoleA].map Role.mention) :=
  mention_text_concatenation.1 false [cexRoleA]

/-- C3: a requester with no administrator flag and no role named Owner,
Admin or Support is rejected with the posting `Forbidden` reply by both
post actions; a requester who passes the staff gate but requests the
everyone mention without the administrator flag or an Owner/Admin role is
rejected with the everyone-mention `Forbidden` reply; and when the
everyone mention is not requested, that second gate never fires. -/
theorem authorization_gates (i : Interaction) (ch : Option Nat) (t b : List Char)
    (f : Option (List Char)) (mr : Option (List Char)) (kw : ButtonKwargs) :
    ((i.user.administrator = false ∧
        ∀ r ∈ i.user.roles,
          r.name ≠ "Owner".data ∧ r.name ≠ "Admin".data ∧ r.name ≠ "Support".data) →
      ∀ me, announce i ch t b f me mr kw = PostResult.forbidden postDeniedMsg ∧
        update i ch t b f me mr kw = PostResult.forbidden postDeniedMsg) ∧
    ((staff_only i = true ∧ i.user.administrator = false ∧
        ∀ r ∈ i.user.roles, r.name ≠ "Owner".data ∧ r.name ≠ "Admin".data) →
      announce i ch t b f true mr kw = PostResult.forbidden everyoneDeniedMsg ∧
      update i ch t b f true mr kw = PostResult.forbidden everyoneDeniedMsg) ∧
    (announce i ch t b f false mr kw ≠ PostResult.forbidden everyoneDeniedMsg ∧
      update i ch t b f false mr kw ≠ PostResult.forbidden everyoneDeniedMsg) := by
  have hmsgs : postDeniedMsg ≠ everyoneDeniedMsg := by decide
  refine ⟨?_, ?_, ?_, ?_⟩
  · rintro ⟨h1, h2⟩ me
    have hs := staff_only_eq_false h1 h2
    exact ⟨announce_not_staff hs, update_not_staff hs⟩
  · rintro ⟨hs, h1, h2⟩
    have hc := can_mention_everyone_eq_false h1 h2
    exact ⟨announce_no_everyone_perm hs hc, update_no_everyone_perm hs hc⟩
  · cases hs : staff_only i with
    | false =>
      rw [announce_not_staff hs]
      intro h
      injection h with hmsg
      exact hmsgs hmsg
    | true =>
      cases ch with
      | none =>
        have hval : announce i none t b f false mr kw =
            PostResult.channelNotFound announceChannelMsg := by
          unfold announce
          rw [hs]
          rfl
        rw [hval]
        exact fun h => PostResult.noConfusion h
      | some c =>
        rw [announce_accepts i c t b f false mr kw hs rfl]
        exact fun h => PostResult.noConfusion h
  · cases hs : staff_only i with
    | false =>
      rw [update_not_staff hs]
      intro h
      injection h with hmsg
      exact hmsgs hmsg
    | true =>
      cases ch with
      | none =>
        have hval : update i none t b f false mr kw =
            PostResult.channelNotFound updateChannelMsg := by
          unfold update
          rw [hs]
          rfl
        rw [hval]
        exact fun h => PostResult.noConfusion h
      | some c =>
        rw [update_accepts i c t b f false mr kw hs rfl]
        exact fun h => PostResult.noConfusion h

/-- Witness for `authorization_gates` at concrete requesters. -/
theorem authorization_gates_witness :
    announce noStaffUser (some 1) ("t".data) ("b".data) none true none kwNone =
      PostResult.forbidden postDeniedMsg ∧
    announce supportOnly (some 1) ("t".data) ("b".data) none true none kwNone =
      PostResult.forbidden everyoneDeniedMsg ∧
    update supportOnly (some 1) ("t".data) ("b".data) none false none kwNone ≠
      PostResult.forbidden everyoneDeniedMsg :=
  ⟨((authorization_gates noStaffUser (some 1) ("t".data) ("b".data) none none kwNone).1
      ⟨rfl, by decide⟩ true).1,
   ((authorization_gates supportOnly (some 1) ("t".data) ("b".data) none none kwNone).2.1
      ⟨by decide, rfl, by decide⟩).1,
   (authorization_gates supportOnly (some 1) ("t".data) ("b".data) none none kwNone).2.2.2⟩

/-- C1 counterexample: mention resolution approved only role A, yet the
outbound payload's allow-list (a blanket boolean `roles` flag) also
permits pinging role B; and with nothing requested or resolved the payload
carries no allow-list at all, so the transport default leaves `everyone`
permitted even though it was never requested. -/
theorem allowlist_counterexample :
    roleIsPermitted
        (send_embed 1 ("t".data) ("b".data) none [] false [cexRoleA]).allowed_mentions
        cexRoleB = true ∧
    cexRoleB ∉ [cexRoleA] ∧
    everyoneIsPermitted
        (send_embed 1 ("t".data) ("b".data) none [] false []).allowed_mentions = true := by
  decide

/-- C1 amended: the allow-list mirrors mention resolution only at boolean
granularity: when the mention text is non-empty the payload carries
`AllowedMentions(everyone = requested flag, roles = whether any role
resolved)` — the `roles` flag permitting every role, not just the resolved
ones — and when the mention text is empty no allow-list is attached and
the transport default applies. -/
theorem allowlist_amended (ch : Nat) (t b : List Char) (f : Option (List Char))
    (btns : List Button) (e : Bool) (rs : List Role) :
    ((build_mention_content e rs).isEmpty = false →
      (send_embed ch t b f btns e rs).allowed_mentions = some ⟨e, !rs.isEmpty⟩) ∧
    ((build_mention_content e rs).isEmpty = true →
      (send_embed ch t b f btns e rs).allowed_mentions = none) := by
  constructor <;> intro h <;> rw [send_embed_allowed, h]
  · rfl
  · rfl

/-- Witness for `allowlist_amended` at a concrete input. -/
theorem allowlist_amended_witness :
    (build_mention_content true [cexRoleA]).isEmpty = false ∧
    (send_embed 1 ("t".data) ("b".data) none [] true [cexRoleA]).allowed_mentions =
      some ⟨true, true⟩ :=
  ⟨by decide,
    (allowlist_amended 1 ("t".data) ("b".data) none [] true [cexRoleA]).1 (by decide)⟩

/-- C2 counterexample: a title that is empty after normalization is not
rejected: the (authorized) request posts to the target channel anyway, so
no implicit empty-field rejection exists. -/
theorem empty_after_normalization_counterexample :
    multilineStr (" ".data) = [] ∧
    (announce adminOnly (some 5) (" ".data) ("x".data) none false none kwNone).isPosted =
      true := by
  decide

/-- C2 amended: a post request whose title or body is empty after
normalization and which passes the authorization and channel gates is not
rejected by either handler: both `announce` and `update` post the message,
carrying the empty normalized title (resp. description) into the embed —
no implicit empty-field rejection exists in the handlers. -/
theorem empty_fields_amended (i : Interaction) (ch : Nat) (t b : List Char)
    (f : Option (List Char)) (me : Bool) (mr : Option (List Char)) (kw : ButtonKwargs)
    (h1 : staff_only i = true) (h2 : (me && !can_mention_everyone i) = false)
    (_hemp : multilineStr t = [] ∨ multilineStr b = []) :
    ((announce i (some ch) t b f me mr kw).isPosted = true ∧
      (update i (some ch) t b f me mr kw).isPosted = true) ∧
    (multilineStr t = [] →
      (announce i (some ch) t b f me mr kw).sentMsg.map (fun m => m.embed.title) =
        some [] ∧
      (update i (some ch) t b f me mr kw).sentMsg.map (fun m => m.embed.title) =
        some []) ∧
    (multilineStr b = [] →
      (announce i (some ch) t b f me mr kw).sentMsg.map
        (fun m => m.embed.description) = some [] ∧
      (update i (some ch) t b f me mr kw).sentMsg.map
        (fun m => m.embed.description) = some []) := by
  rw [announce_accepts i ch t b f me mr kw h1 h2, update_accepts i ch t b f me mr kw h1 h2]
  refine ⟨⟨rfl, rfl⟩, ?_, ?_⟩
  · intro ht
    constructor <;>
      · simp only [PostResult.sentMsg, Option.map_some']
        rw [send_embed_embed, ht]
        rfl
  · intro hb
    constructor <;>
      · simp only [PostResult.sentMsg, Option.map_some']
        rw [send_embed_embed, hb]
        rfl

/-- Witness for `empty_fields_amended`: an empty-after-normalization title
posted by `announce`, and an empty-after-normalization body posted by
`update` with the empty description in the payload. -/
theorem empty_fields_amended_witness :
    (announce adminOnly (some 5) (" ".data) ("x".data) none false none kwNone).isPosted =
      true ∧
    (update adminOnly (some 5) ("x".data) (" ".data) none false none kwNone).sentMsg.map
      (fun m => m.embed.description) = some [] :=
  ⟨((empty_fields_amended adminOnly 5 (" ".data) ("x".data) none false none kwNone
      (by decide) rfl (Or.inl (by decide))).1).1,
   ((empty_fields_amended adminOnly 5 ("x".data) (" ".data) none false none kwNone
      (by decide) rfl (Or.inr (by decide))).2.2 (by decide)).2⟩

/-- C4 counterexample: an accepted request whose body input is the
5000-character all-spaces string yields a posted description of length 0,
not 4096: normalization strips the body to empty before the hard cut. -/
theorem truncation_counterexample :
    (announce adminOnly (some 5) ("t".data) (List.replicate 5000 ' ') none false none
        kwNone).sentMsg.map (fun m => m.embed.description.length) = some 0 := by
  rw [announce_accepts adminOnly 5 ("t".data) (List.replicate 5000 ' ') none false none kwNone
      (by decide) rfl]
  simp only [PostResult.sentMsg, Option.map_some']
  rw [send_embed_embed, multilineStr_replicate_space]
  rfl

/-- C4 amended: for an accepted request whose 5000-character body is left
unchanged by normalization and whose 4096-character prefix carries no
leading or trailing whitespace, the posted description is exactly the
first 4096 characters of the input, of length exactly 4096 (title and
footer are likewise hard-cut to 256 and 2048 after normalization). -/
theorem truncation_amended (i : Interaction) (ch : Nat) (t b : List Char)
    (f : Option (List Char)) (me : Bool) (mr : Option (List Char)) (kw : ButtonKwargs)
    (h1 : staff_only i = true) (h2 : (me && !can_mention_everyone i) = false)
    (hlen : b.length = 5000) (hfix : multilineStr b = b)
    (hpre : pyStrip (b.take 4096) = b.take 4096) :
    (announce i (some ch) t b f me mr kw).sentMsg.map (fun m => m.embed.description) =
      some (b.take 4096) ∧
    (announce i (some ch) t b f me mr kw).sentMsg.map
      (fun m => m.embed.description.length) = some 4096 := by
  rw [announce_accepts i ch t b f me mr kw h1 h2, hfix]
  have hdesc : ∀ (chn : Nat) (tt : List Char) (ff : Option (List Char))
      (bts : List Button) (rs : List Role),
      (send_embed chn tt (b.take 4096) ff bts me rs).embed.description = b.take 4096 := by
    intro chn tt ff bts rs
    rw [send_embed_embed]
    show (pyStrip (b.take 4096)).take 4096 = b.take 4096
    rw [hpre, List.take_take]
    norm_num
  constructor
  · simp only [PostResult.sentMsg, Option.map_some']
    rw [hdesc]
  · simp only [PostResult.sentMsg, Option.map_some']
    rw [hdesc, List.length_take, hlen]
    norm_num

/-- Witness for `truncation_amended` at a concrete 5000-character body. -/
theorem truncation_amended_witness :
    (List.replicate 5000 'a').length = 5000 ∧
    multilineStr (List.replicate 5000 'a') = List.replicate 5000 'a' ∧
    (announce adminOnly (some 5) ("t".data) (List.replicate 5000 'a') none false none
        kwNone).sentMsg.map (fun m => m.embed.description.length) = some 4096 :=
  ⟨List.length_replicate 5000 'a', multilineStr_replicate_nonspace (by decide) (by decide) 5000,
    (truncation_amended adminOnly 5 ("t".data) (List.replicate 5000 'a') none false none
      kwNone (by decide) rfl (List.length_replicate 5000 'a')
      (multilineStr_replicate_nonspace (by decide) (by decide) 5000)
      (by
        rw [List.take_replicate]
        exact pyStrip_replicate_nonspace (by decide) _)).2⟩

theorem parseSlot_length_le (label url emoji style : Option (List Char)) :
    (parseSlot label url emoji style).length ≤ 1 := by
  cases label with
  | none => exact Nat.zero_le 1
  | some l =>
    show (if l.isEmpty = true then [] else
      [create_button l url emoji
        (style_map_get (pyLower (style.getD ("secondary".data))))]).length ≤ 1
    by_cases h : l.isEmpty = true
    · rw [if_pos h]
      exact Nat.zero_le 1
    · rw [if_neg h]
      exact Nat.le_refl 1

/-- C9 counterexample: a slot whose label is present but empty is skipped
(so slots are not skipped "exactly when the label is absent"), and a
present-but-empty url does not force the link style. -/
theorem button_assembly_counterexample :
    parse_button_params
        ⟨some [], none, none, none, none, none, none, none, none, none, none, none⟩ = [] ∧
    (create_button ("x".data) (some []) none ButtonStyle.secondary).style =
      ButtonStyle.secondary := by
  decide

/-- C9 amended: button assembly walks slots 1..3 in order, each slot
independently contributing at most one button; a slot is skipped exactly
when its label is absent or empty; the style defaults to `secondary`, is
matched case-insensitively (`"SUCCESS"` maps to `success`), any
unrecognized token maps to `secondary`, and a non-empty url forces the
`link` style; at most 3 buttons result. -/
theorem button_assembly_amended :
    (∀ kw : ButtonKwargs, parse_button_params kw =
      parseSlot kw.button1_label kw.button1_url kw.button1_emoji kw.button1_style ++
      parseSlot kw.button2_label kw.button2_url kw.button2_emoji kw.button2_style ++
      parseSlot kw.button3_label kw.button3_url kw.button3_emoji kw.button3_style) ∧
    (∀ label url emoji style,
      parseSlot label url emoji style = [] ↔ pyTruthyStr label = false) ∧
    (∀ l url emoji st, pyTruthyStr url = true →
      (create_button l url emoji st).style = ButtonStyle.link) ∧
    (∀ l url emoji, parseSlot (some l) url emoji none =
      parseSlot (some l) url emoji (some ("secondary".data))) ∧
    style_map_get (pyLower ("SUCCESS".data)) = ButtonStyle.success ∧
    (∀ s, s ≠ "primary".data → s ≠ "secondary".data → s ≠ "success".data →
      s ≠ "danger".data → s ≠ "link".data → style_map_get s = ButtonStyle.secondary) ∧
    style_map_get (pyLower ("fancy".data)) = ButtonStyle.secondary ∧
    (∀ kw : ButtonKwargs, (parse_button_params kw).length ≤ 3) := by
  refine ⟨fun kw => rfl, ?_, ?_, fun l url emoji => rfl, by decide, ?_, by decide, ?_⟩
  · intro label url emoji style
    cases label with
    | none => exact iff_of_true rfl rfl
    | some l =>
      show (if l.isEmpty = true then [] else
        [create_button l url emoji
          (style_map_get (pyLower (style.getD ("secondary".data))))]) = [] ↔
        (!l.isEmpty) = false
      by_cases h : l.isEmpty = true
      · rw [if_pos h, h]
        exact iff_of_true rfl rfl
      · have hb : l.isEmpty = false := by
          cases hx : l.isEmpty
          · rfl
          · exact absurd hx h
        rw [if_neg h, hb]
        exact iff_of_false (by simp) (by decide)
  · intro l url emoji st h
    unfold create_button
    rw [if_pos h]
  · intro s h1 h2 h3 h4 h5
    unfold style_map_get
    rw [if_neg h1, if_neg h2, if_neg h3, if_neg h4, if_neg h5]
  · intro kw
    unfold parse_button_params
    have l1 := parseSlot_length_le kw.button1_label kw.button1_url kw.button1_emoji kw.button1_style
    have l2 := parseSlot_length_le kw.button2_label kw.button2_url kw.button2_emoji kw.button2_style
    have l3 := parseSlot_length_le kw.button3_label kw.button3_url kw.button3_emoji kw.button3_style
    rw [List.length_append, List.length_append]
    omega

/-- Witness for `button_assembly_amended` at concrete inputs. -/
theorem button_assembly_amended_witness :
    (create_button ("Go".data) (some ("https://example.com".data)) none
      ButtonStyle.secondary).style = ButtonStyle.link ∧
    style_map_get ("weird".data) = ButtonStyle.secondary ∧
    parseSlot (some []) none none none = [] :=
  ⟨button_assembly_amended.2.2.1 ("Go".data) (some ("https://example.com".data)) none
      ButtonStyle.secondary (by decide),
   button_assembly_amended.2.2.2.2.2.1 ("weird".data) (by decide) (by decide) (by decide)
      (by decide) (by decide),
   (button_assembly_amended.2.1 (some []) none none none).mpr (by decide)⟩

/-- C10: a button built from a labelled slot with no url is a
non-hyperlink button (its url field stays empty) whose custom identifier
is `"btn_"` followed by the lowercased label with every space replaced by
an underscore — so labels differing only in case or spacing collide — and
a button built with a non-empty url carries no custom identifier. -/
theorem button_custom_id_scheme :
    (∀ l emoji st, (create_button l none emoji st).custom_id =
        some ("btn_".data ++ pyReplace (pyLower l) (" ".data) ("_".data)) ∧
      (create_button l none emoji st).url = none) ∧
    (∀ l url emoji st, pyTruthyStr url = true →
      (create_button l url emoji st).custom_id = none) ∧
    (create_button ("Click Me".data) none none ButtonStyle.secondary).custom_id =
      (create_button ("click_me".data) none none ButtonStyle.primary).custom_id := by
  refine ⟨fun l emoji st => ⟨rfl, rfl⟩, ?_, by decide⟩
  intro l url emoji st h
  unfold create_button
  rw [if_pos h]

/-- Witness for `button_custom_id_scheme` at concrete inputs. -/
theorem button_custom_id_scheme_witness :
    pyTruthyStr (some ("https://x.y".data)) = true ∧
    (create_button ("Download".data) (some ("https://x.y".data)) none
      ButtonStyle.primary).custom_id = none :=
  ⟨by decide, button_custom_id_scheme.2.1 ("Download".data) (some ("https://x.y".data)) none
    ButtonStyle.primary (by decide)⟩
